import Mathlib

/-!
Verification of the countpy crawler against its specification.

Python strings are modelled shallowly as lists of Unicode code points
(`Str := List Nat`); the crawler's data is ASCII, and Python's `str.lower` /
`str.upper` are modelled by their ASCII case mapping.  Pure functions of the
source are translated one by one; stateful methods become explicit state
passing on structures mirroring the Python objects.  Fallible code returns
`Option`/`Except`.  Bounded `while` loops are translated with an explicit
fuel argument that is always instantiated with a bound larger than the number
of iterations the loop can perform.
-/

/-- A Python `str` as its list of code points. -/
abbrev Str := List Nat

/-- Code points of a Lean string literal, used to write concrete inputs. -/
def strOf (s : String) : Str := s.data.map Char.toNat

/-- ASCII model of Python `str.lower` on one code point. -/
def lowerN (c : Nat) : Nat := if 65 ≤ c ∧ c ≤ 90 then c + 32 else c

/-- ASCII model of Python `str.upper` on one code point. -/
def upperN (c : Nat) : Nat := if 97 ≤ c ∧ c ≤ 122 then c - 32 else c

def lowerS (s : Str) : Str := s.map lowerN

def upperS (s : Str) : Str := s.map upperN

/-- Python regex `\s` (ASCII): space, tab, newline, carriage return,
vertical tab, form feed. -/
def isPySpace (c : Nat) : Bool := c == 32 || c == 9 || c == 10 || c == 13 || c == 11 || c == 12

/-- Python regex `\w` (ASCII): letters, digits, underscore. -/
def isWordC (c : Nat) : Bool :=
  (48 ≤ c && c ≤ 57) || (65 ≤ c && c ≤ 90) || (97 ≤ c && c ≤ 122) || c == 95

/-- Regex class `[1-9]`. -/
def isDigit19 (c : Nat) : Bool := 49 ≤ c && c ≤ 57

/-- Regex class `\d` (ASCII). -/
def isDigitC (c : Nat) : Bool := 48 ≤ c && c ≤ 57

/-- Python `s.endswith(pat)`. -/
def endsWith (s pat : Str) : Bool := pat.reverse.isPrefixOf s.reverse

/-- Python `s.strip()`. -/
def pyStrip (s : Str) : Str :=
  ((s.dropWhile isPySpace).reverse.dropWhile isPySpace).reverse

/-- `pat in s` for a nonempty pattern: some contiguous occurrence exists. -/
def containsSub (pat : Str) : Str → Bool
  | [] => pat.isPrefixOf []
  | c :: cs => pat.isPrefixOf (c :: cs) || containsSub pat cs

/-- One step of Python `s.replace(pat, '')`: scan left to right, removing
non-overlapping occurrences of `pat`.  `fuel` bounds the recursion and is
always called with `s.length`, which suffices because every step consumes at
least one code point. -/
def replDelAux (pat : Str) : Nat → Str → Str
  | 0, s => s
  | _ + 1, [] => []
  | fuel + 1, c :: cs =>
    if pat.isPrefixOf (c :: cs) then replDelAux pat fuel ((c :: cs).drop pat.length)
    else c :: replDelAux pat fuel cs

/-- Python `s.replace(pat, '')`. -/
def pyReplaceDel (s pat : Str) : Str := if pat.isEmpty then s else replDelAux pat s.length s

/-- Core of `HashType.genkey` after the prefix has been normalised to end in
`':'`: strip every occurrence of the prefix when the name starts with it, then
prepend the prefix to the lowercased remainder (models
`name.replace(prefix, '')` followed by `'{}{}'.format(prefix, name.lower())`). -/
def gkCore (p name : Str) : Str :=
  p ++ lowerS (if p.isPrefixOf name then pyReplaceDel name p else name)

/-- `HashType.genkey` from app/models.py: append `':'` to a non-empty prefix
that does not already end in it, strip the prefix from the name if the name
starts with it, and return prefix plus lowercased name. -/
def genkey (pfx name : Str) : Str :=
  gkCore (if ¬pfx.isEmpty ∧ ¬endsWith pfx (strOf ":") then pfx ++ strOf ":" else pfx) name

/-- All start positions of `pat` in `s` (ascending). -/
def occIdxs (pat : Str) : Str → List Nat
  | [] => []
  | c :: cs => (if pat.isPrefixOf (c :: cs) then [0] else []) ++ (occIdxs pat cs).map (· + 1)

/-- Python `s.rsplit(pat, maxsplit=1)[0]`: the part before the rightmost
occurrence of `pat` (the whole string when there is none). -/
def pyRsplit1Before (pat s : Str) : Str :=
  match (occIdxs pat s).getLast? with
  | none => s
  | some i => s.take i

/-- Python `s.split(sep, maxsplit=1)[0]` for a one-character separator. -/
def takeBeforeFirst (c : Nat) (s : Str) : Str := s.takeWhile (fun x => !(x == c))

def splitOnCAux (c : Nat) (acc : Str) : Str → List Str
  | [] => [acc.reverse]
  | x :: xs => if x == c then acc.reverse :: splitOnCAux c [] xs else splitOnCAux c (x :: acc) xs

/-- Python `s.split(sep)` for a one-character separator. -/
def splitOnC (c : Nat) (s : Str) : List Str := splitOnCAux c [] s

/-- Python `s.startswith('.')`. -/
def startsWithDot (s : Str) : Bool :=
  match s with
  | 46 :: _ => true
  | _ => false

/-- Append `x` unless present; used to model building a Python `set`
(iteration order of a Python set is unspecified, so theorems below only state
order-insensitive facts about these lists). -/
def addIfAbsent (x : Str) (l : List Str) : List Str := if x ∈ l then l else l ++ [x]

/-- Python dict assignment `d[k] = v` on an association list: overwrite in
place when the key exists (keeping its position), otherwise append. -/
def assocUpsert {β : Type} (k : Str) (v : β) (l : List (Str × β)) : List (Str × β) :=
  if (l.lookup k).isSome then l.map (fun e => if e.1 == k then (e.1, v) else e)
  else l ++ [(k, v)]

/-- `os.path.basename` (POSIX): the part after the last `'/'`. -/
def pyBasename (p : Str) : Str :=
  match (occIdxs [47] p).getLast? with
  | none => p
  | some i => p.drop (i + 1)

/-- `os.path.dirname` (POSIX): the part up to the last `'/'`, with trailing
slashes stripped unless the head is all slashes. -/
def pyDirname (p : Str) : Str :=
  match (occIdxs [47] p).getLast? with
  | none => []
  | some i =>
    let head := p.take (i + 1)
    if ¬head.isEmpty ∧ ¬head.all (fun c => c == 47) then
      (head.reverse.dropWhile (fun c => c == 47)).reverse
    else head

/-- Root of `os.path.splitext` on a basename: split at the last dot unless all
characters before it are dots. -/
def pySplitextRoot (base : Str) : Str :=
  match (occIdxs [46] base).getLast? with
  | none => base
  | some i => if (base.takeWhile (fun c => c == 46)).length < i then base.take i else base

def strImportKw : Str := strOf "import"

def strFromKw : Str := strOf "from"

/-- `RepoFiles.is_pyfile`: lowercased path ends in `.py`. -/
def is_pyfile (path : Str) : Bool := endsWith (lowerS path) (strOf ".py")

/-- `RepoFiles.is_reqfile`: lowercased basename equals `requirements.txt`. -/
def is_reqfile (path : Str) : Bool := lowerS (pyBasename path) == strOf "requirements.txt"

/-- `RepoFiles.pkgname_from_path`: for a root-level file, the basename (minus
the extension for a source file); otherwise the first non-empty of the first
two components of the directory part; lowercased. -/
def pkgname_from_path (path : Str) : Str :=
  let dirs := pyDirname path
  let base := pyBasename path
  lowerS (if dirs = [] ∨ dirs = [47] then
            (if is_pyfile base then pySplitextRoot base else base)
          else
            match splitOnC 47 dirs with
            | [] => []
            | d0 :: rest => if ¬d0.isEmpty then d0 else rest.headD [])

/-- Shortest-match scan for a lazy `.+?` (DOTALL) followed by a zero-width
look-around `la prev rem` evaluated after each consumed code point (`prev` is
the last consumed point, for `(?<!\\)`-style look-behinds).  Returns the group
and the unconsumed remainder. -/
def lazyMin (la : Nat → Str → Bool) (acc : Str) : Str → Option (Str × Str)
  | [] => none
  | c :: cs => if la c cs then some (acc ++ [c], cs) else lazyMin la (acc ++ [c]) cs

/-- Look-ahead `(?= +import|(?<!\\)\n|$)` of the `_find_packages` pyfile
pattern. -/
def pkgLookAhead (lastC : Nat) (rem : Str) : Bool :=
  (let sp := (rem.takeWhile (fun c => c == 32)).length
   decide (1 ≤ sp) && strImportKw.isPrefixOf (rem.drop sp))
  || (match rem with
      | 10 :: _ => !(lastC == 92)
      | _ => false)
  || rem.isEmpty

/-- Backtracking of the greedy ` +` before the lazy group of the pyfile
package pattern: try the maximal run of spaces first, then shorter ones. -/
def pkgTrySpaces (afterKw : Str) : Nat → Option (Str × Str)
  | 0 => none
  | r + 1 =>
    match lazyMin pkgLookAhead [] (afterKw.drop (r + 1)) with
    | some res => some res
    | none => pkgTrySpaces afterKw r

/-- One anchored attempt of the `_find_packages` pyfile pattern
`(?:^|\n)\s*(?:from|import) +(.+?)(?= +import|(?<!\\)\n|$)` (DOTALL), with the
`(?:^|\n)` anchor already consumed by the caller. -/
def matchPkgAt (rest : Str) : Option (Str × Str) :=
  let afterWs := rest.dropWhile isPySpace
  match (if strFromKw.isPrefixOf afterWs then some 4
         else if strImportKw.isPrefixOf afterWs then some 6 else none) with
  | none => none
  | some k =>
    let afterKw := afterWs.drop k
    let m := (afterKw.takeWhile (fun c => c == 32)).length
    if m = 0 then none else pkgTrySpaces afterKw m

/-- Look-ahead `(?<!\\)(?=\n|$)` of the `_find_lines` pyfile pattern. -/
def lineLookAhead (lastC : Nat) (rem : Str) : Bool :=
  (match rem with
   | 10 :: _ => !(lastC == 92)
   | _ => false)
  || rem.isEmpty

/-- One anchored attempt of the `_find_lines` pyfile pattern
`(?:^|\n)\s*((?:import|from).+?(?<!\\)(?=\n|$))` (DOTALL). -/
def matchLineAt (rest : Str) : Option (Str × Str) :=
  let afterWs := rest.dropWhile isPySpace
  match (if strImportKw.isPrefixOf afterWs then some 6
         else if strFromKw.isPrefixOf afterWs then some 4 else none) with
  | none => none
  | some k => lazyMin lineLookAhead (afterWs.take k) (afterWs.drop k)

/-- Look-behind plus look-ahead `(?<!\\)(?= #|\n|$)` of the `_find_lines`
requirement-file pattern. -/
def reqLineLookAhead (lastC : Nat) (rem : Str) : Bool :=
  !(lastC == 92) &&
    ((match rem with
      | 32 :: 35 :: _ => true
      | 10 :: _ => true
      | _ => false)
     || rem.isEmpty)

/-- One anchored attempt of the `_find_lines` requirement-file pattern
`(?:^|\n)\s*(?!#)\s*([^\s].+?)(?<!\\)(?= #|\n|$)` (DOTALL).  Backtracking of
the first `\s*` against `(?!#)` means the group effectively starts after the
maximal whitespace run, and a `#` there is only rejected when that run was
empty. -/
def matchReqLineAt (rest : Str) : Option (Str × Str) :=
  let m := (rest.takeWhile isPySpace).length
  match rest.drop m with
  | [] => none
  | c :: cs => if c == 35 && m == 0 then none else lazyMin reqLineLookAhead [c] cs

/-- Scan loop for `re.findall` on patterns anchored at `(?:^|\n)`: after a
failed or successful attempt, the next attempt starts at the next `'\n'`,
which the anchor consumes.  `fuel` bounds the scan; every iteration consumes
at least one code point, so `s.length + 1` suffices. -/
def scanLoopA {α : Type} (matcher : Str → Option (α × Str)) : Nat → Str → List α
  | 0, _ => []
  | _ + 1, [] => []
  | fuel + 1, c :: cs =>
    if c == 10 then
      match matcher cs with
      | some (g, rest) => g :: scanLoopA matcher fuel rest
      | none => scanLoopA matcher fuel cs
    else scanLoopA matcher fuel cs

/-- `re.findall` for the `(?:^|\n)`-anchored patterns above: one attempt with
the `^` alternative at the start, then the newline-anchored scan. -/
def scanAnchoredA {α : Type} (matcher : Str → Option (α × Str)) (s : Str) : List α :=
  match matcher s with
  | some (g, rest) => g :: scanLoopA matcher (s.length + 1) rest
  | none => scanLoopA matcher (s.length + 1) s

/-- `RepoFiles.parse_pyfile`: run the pyfile package pattern, drop relative
imports, split on commas, strip an `as` alias with `rsplit('as', 1)[0]`
(substring split, exactly as the source does), take the part before the first
dot, strip and lowercase.  The Python `set` is modelled as a first-insertion
ordered duplicate-free list. -/
def parse_pyfile (content : Str) : List Str :=
  (scanAnchoredA matchPkgAt content).foldl
    (fun ret found =>
      if startsWithDot (pyStrip found) then ret
      else (splitOnC 44 found).foldl
        (fun ret part =>
          addIfAbsent
            (lowerS (pyStrip (takeBeforeFirst 46 (pyRsplit1Before (strOf "as") part)))) ret)
        ret)
    []

/-- Operator class `[!~<=>]` of the `_find_packages` requirement pattern. -/
def isOpC (c : Nat) : Bool := c == 33 || c == 126 || c == 60 || c == 61 || c == 62

/-- `\s*\d+` inside the version group: the consumed text and the remainder. -/
def reqNumPart (s : Str) : Option (Str × Str) :=
  let sp := s.takeWhile isPySpace
  let d := (s.drop sp.length).takeWhile isDigitC
  if d.isEmpty then none else some (sp ++ d, s.drop (sp.length + d.length))

/-- Greedy `(?:\.\d+)*`.  The fuel is the length of the remainder. -/
def reqDotNums : Nat → Str → Str × Str
  | 0, s => ([], s)
  | fuel + 1, s =>
    match s with
    | 46 :: t =>
      let d := t.takeWhile isDigitC
      if d.isEmpty then ([], s)
      else
        let (u, rest) := reqDotNums fuel (t.drop d.length)
        (46 :: (d ++ u), rest)
    | _ => ([], s)

/-- `[!~<=>]{1,2}\s*\d+(?:\.\d+)*` with the `{1,2}` backtracking: try two
operator characters, then one. -/
def reqOpsNum (s : Str) : Option (Str × Str) :=
  match s with
  | a :: b :: t =>
    if isOpC a then
      (if isOpC b then
         match reqNumPart t with
         | some (u, rest) =>
           let (v, rest2) := reqDotNums rest.length rest
           some (a :: b :: (u ++ v), rest2)
         | none =>
           match reqNumPart (b :: t) with
           | some (u, rest) =>
             let (v, rest2) := reqDotNums rest.length rest
             some (a :: (u ++ v), rest2)
           | none => none
       else
         match reqNumPart (b :: t) with
         | some (u, rest) =>
           let (v, rest2) := reqDotNums rest.length rest
           some (a :: (u ++ v), rest2)
         | none => none)
    else none
  | [_] => none
  | [] => none

/-- Greedy `(?:\s*,\s*[!~<=>]{1,2}\s*\d+(?:\.\d+)*)*`. -/
def reqMoreCons : Nat → Str → Str × Str
  | 0, s => ([], s)
  | fuel + 1, s =>
    let sp := s.takeWhile isPySpace
    match s.drop sp.length with
    | 44 :: t =>
      let sp2 := t.takeWhile isPySpace
      match reqOpsNum (t.drop sp2.length) with
      | some (u, rest) =>
        let (v, rest2) := reqMoreCons fuel rest
        (sp ++ (44 :: (sp2 ++ u ++ v)), rest2)
      | none => ([], s)
    | _ => ([], s)

/-- Optional version group
`(\s*[!~<=>]{1,2}\s*\d+(?:\.\d+)*(?:\s*,\s*[!~<=>]{1,2}\s*\d+(?:\.\d+)*)*)?`:
the captured text (empty when the group does not participate, as
`re.findall` reports it) and the remainder. -/
def reqVersionOpt (s : Str) : Str × Str :=
  let sp := s.takeWhile isPySpace
  match reqOpsNum (s.drop sp.length) with
  | some (u, rest) =>
    let (v, rest2) := reqMoreCons rest.length rest
    (sp ++ u ++ v, rest2)
  | none => ([], s)

/-- Optional extras group `(?:\s*\[[\w\s,-]+\])?`: the remainder after it when
it matches. -/
def reqExtrasOpt (s : Str) : Str :=
  let sp := s.takeWhile isPySpace
  match s.drop sp.length with
  | 91 :: u =>
    let inner := u.takeWhile (fun c => isWordC c || isPySpace c || c == 44 || c == 45)
    if inner.isEmpty then s
    else
      match u.drop inner.length with
      | 93 :: rest => rest
      | _ => s
  | _ => s

/-- One anchored attempt of the `_find_packages` requirement pattern
`(?:^|\n)\s*(\w[\w-]+)(?:\s*\[[\w\s,-]+\])?(<version group>)?`: yields the
`(name, version)` capture pair and the remainder. -/
def matchReqPkgAt (rest : Str) : Option ((Str × Str) × Str) :=
  let afterWs := rest.dropWhile isPySpace
  match afterWs with
  | [] => none
  | c :: cs =>
    if isWordC c then
      let run := cs.takeWhile (fun x => isWordC x || x == 45)
      if run.isEmpty then none
      else
        let rest1 := reqExtrasOpt (cs.drop run.length)
        let (v, rest2) := reqVersionOpt rest1
        some ((c :: run, v), rest2)
    else none

/-- File kinds recognised by `RepoFiles`. -/
inductive FType
  | pyfile
  | reqfile
deriving DecidableEq

/-- `RepoFiles.get_ftype`. -/
def get_ftype (path : Str) : Option FType :=
  if is_pyfile path then some .pyfile
  else if is_reqfile path then some .reqfile
  else none

/-- `RepoFiles.retract_content`: keep only the significant lines (the
`_find_lines` matches), newline-joined. -/
def retract_content (content : Str) : FType → Str
  | .pyfile => List.intercalate [10] (scanAnchoredA matchLineAt content)
  | .reqfile => List.intercalate [10] (scanAnchoredA matchReqLineAt content)

/-- `RepoFiles.parse_reqfile`: the `(lowercased stripped name, stripped
version)` pairs as a dict (later entries overwrite earlier ones). -/
def parse_reqfile (content : Str) : List (Str × Str) :=
  (scanAnchoredA matchReqPkgAt content).foldl
    (fun d nv => assocUpsert (lowerS (pyStrip nv.1)) (pyStrip nv.2) d) []

/-- `RepoFiles`: the `pyfile` sub-map and the at-most-one-entry `reqfile`
sub-map. -/
structure RepoFiles where
  pyfiles : List (Str × Str)
  reqfile : Option (Str × Str)
deriving DecidableEq

def RepoFiles.empty : RepoFiles := ⟨[], none⟩

/-- `RepoFiles.__setitem__`: classify the path, retract the content, store it
(a requirement file replaces the whole sub-map); `none` models the `KeyError`
for an unclassified path. -/
def RepoFiles.setitem (files : RepoFiles) (path content : Str) : Option RepoFiles :=
  match get_ftype path with
  | none => none
  | some .pyfile =>
    some { files with pyfiles := assocUpsert path (retract_content content .pyfile) files.pyfiles }
  | some .reqfile =>
    some { files with reqfile := some (path, retract_content content .reqfile) }

/-- `RepoFiles.local_packages`: the set of names implied by the repository's
own source paths (as a first-insertion ordered list). -/
def RepoFiles.local_packages (files : RepoFiles) : List Str :=
  files.pyfiles.foldl (fun acc pc => addIfAbsent (pkgname_from_path pc.1) acc) []

/-- `Package` from app/models.py: `repos` is a Python set (a `Finset`),
`pyfiles` a `defaultdict(set)` (a total function defaulting to `∅`),
`reqfiles` a dict (an association list), plus the three persisted counters.
The fields default to the `_defaults` used when no stored record exists. -/
structure Package where
  name : Str
  repos : Finset Str := ∅
  reqfiles : List (Str × Str) := []
  pyfiles : Str → Finset Str := fun _ => ∅
  num_repos : Nat := 0
  num_pyfiles : Nat := 0
  num_reqfiles : Nat := 0

/-- `Package(name)` when no stored record exists: lowercased name, defaults
everywhere. -/
def Package.fresh (name : Str) : Package := { name := lowerS name }

/-- `Package.add_repo`. -/
def Package.add_repo (p : Package) (repo : Str) : Package :=
  if repo ∈ p.repos then p
  else { p with repos := insert repo p.repos, num_repos := p.num_repos + 1 }

/-- `Package.add_pyfile`. -/
def Package.add_pyfile (p : Package) (path repo : Str) : Package :=
  let q := p.add_repo repo
  if path ∈ q.pyfiles repo then q
  else { q with pyfiles := Function.update q.pyfiles repo (insert path (q.pyfiles repo)),
                num_pyfiles := q.num_pyfiles + 1 }

/-- `Package.add_pkgver`. -/
def Package.add_pkgver (p : Package) (version repo : Str) : Package :=
  let q := p.add_repo repo
  if (q.reqfiles.lookup repo).isSome then
    { q with reqfiles := assocUpsert repo version q.reqfiles }
  else
    { q with reqfiles := q.reqfiles ++ [(repo, version)], num_reqfiles := q.num_reqfiles + 1 }

/-- `Repository` from app/models.py (the fields the crawl path uses), with the
`_defaults` of a fresh record. -/
structure Repository where
  name : Str
  id : Str := []
  url : Str := []
  contents_url : Str := []
  retrieved : Bool := false
  files : RepoFiles := RepoFiles.empty
  packages : List Str := []

/-- `Repository.expects_file`. -/
def expects_file (path : Str) : Bool := is_pyfile path || is_reqfile path

/-- `Repository.add_file`: store the path's retracted content; the boolean
reports whether the path was accepted (the `KeyError` branch returns false). -/
def Repository.add_file (repo : Repository) (path content : Str) : Repository × Bool :=
  match repo.files.setitem path content with
  | none => (repo, false)
  | some fs => ({ repo with files := fs }, true)

/-- `ext_packages.get(pkgname) or Package(pkgname)` inside `find_packages`:
the already-touched package, else the stored record (`db`), else a fresh one. -/
def getPkgFor (db : Str → Option Package) (ext : List (Str × Package)) (n : Str) : Package :=
  match ext.lookup n with
  | some pk => pk
  | none => (db n).getD (Package.fresh n)

/-- `Repository.find_packages`: attribute every non-local, non-empty extracted
name from every source file, then every non-local name of the requirement
file, commit, and record the external package names on the repository.  `db`
is the persisted-package lookup (`Package(name)` loads it when it exists);
commits are the returned association list. -/
def find_packages (db : Str → Option Package) (repo : Repository) :
    Repository × List (Str × Package) :=
  let lp := repo.files.local_packages
  let ext1 := repo.files.pyfiles.foldl
    (fun ext pc =>
      (parse_pyfile pc.2).foldl
        (fun ext pkgname =>
          if pkgname ∈ lp then ext
          else if pkgname.isEmpty then ext
          else assocUpsert pkgname ((getPkgFor db ext pkgname).add_pyfile pc.1 repo.name) ext)
        ext)
    []
  let ext2 :=
    match repo.files.reqfile with
    | none => ext1
    | some rf =>
      (parse_reqfile rf.2).foldl
        (fun ext nv =>
          if nv.1.isEmpty then ext
          else if nv.1 ∈ lp then ext
          else assocUpsert nv.1 ((getPkgFor db ext nv.1).add_pkgver nv.2 repo.name) ext)
        ext1
  ({ repo with packages := ext2.map Prod.fst }, ext2)

/-- `SearchWorker.retrieve_files_in_repo`: skip an already-retrieved
repository or one with no contents URL; otherwise walk (the walker's yielded
`(path, decoded content)` pairs are the `walkFiles` parameter), attach the
expected files, extract packages when any file was added, and mark the
repository retrieved.  The boolean reports whether the content walker was
invoked — every contents API call of the method flows through it. -/
def retrieve_files_in_repo (db : Str → Option Package) (repo : Repository)
    (walkFiles : List (Str × Str)) : Repository × List (Str × Package) × Bool :=
  if repo.retrieved then (repo, [], false)
  else if repo.contents_url.isEmpty then (repo, [], false)
  else
    let s1 := walkFiles.foldl
      (fun (s : Repository × Bool) pc =>
        if expects_file pc.1 then ((s.1.add_file pc.1 pc.2).1, true) else s)
      (repo, false)
    let s2 := if s1.2 then find_packages db s1.1 else (s1.1, [])
    ({ s2.1 with retrieved := true }, s2.2, true)

/-- `int()` on a digit string. -/
def digitsToNat (ds : Str) : Nat := ds.foldl (fun a c => a * 10 + (c - 48)) 0

/-- Backtracking of the optional greedy `([1-9]+)?` of
`match_time_annotation = r'^\s*([1-9]+)?\s*(\w+)\s*$'`: try `k` digits for the
amount group (longest first, down to the group not participating), then
`\s*(\w+)\s*$` on the remainder.  `s1` is the input with leading whitespace
removed. -/
def timeAnnoTryK (s1 : Str) : Nat → Option (Option Str × Str)
  | 0 =>
    let rest2 := s1.dropWhile isPySpace
    let w := rest2.takeWhile isWordC
    if ¬w.isEmpty ∧ (rest2.drop w.length).all isPySpace then some (none, w) else none
  | k + 1 =>
    let rest2 := (s1.drop (k + 1)).dropWhile isPySpace
    let w := rest2.takeWhile isWordC
    if ¬w.isEmpty ∧ (rest2.drop w.length).all isPySpace then some (some (s1.take (k + 1)), w)
    else timeAnnoTryK s1 k

/-- `match_time_annotation(s)`: the `(amount?, unit)` capture groups, `none`
when the pattern does not match. -/
def matchTimeAnno (s : Str) : Option (Option Str × Str) :=
  let s1 := s.dropWhile isPySpace
  timeAnnoTryK s1 (s1.takeWhile isDigit19).length

/-- The `factors` table of `to_second` (lib/search/utils.py and
modules/search/utils.py are identical here). -/
def unitsTable : List (Nat × List Str) :=
  [(1, [strOf "s", strOf "sec", strOf "secs", strOf "second", strOf "seconds"]),
   (60, [strOf "m", strOf "min", strOf "mins", strOf "minute", strOf "minutes"]),
   (3600, [strOf "h", strOf "hr", strOf "hrs", strOf "hour", strOf "hours"]),
   (86400, [strOf "d", strOf "day", strOf "days"]),
   (604800, [strOf "w", strOf "week", strOf "weeks"]),
   (2592000, [strOf "mo", strOf "month", strOf "months"]),
   (31536000, [strOf "y", strOf "yr", strOf "year", strOf "years"])]

/-- The `for factor, units in factors.items(): if time_unit in units` lookup. -/
def lookupFactor (u : Str) : Option Nat :=
  (unitsTable.find? (fun e => e.2.contains u)).map Prod.fst

/-- `to_second`: `none` models the `ValueError` for an unknown annotation. -/
def to_second (s : Str) : Option Nat :=
  match matchTimeAnno s with
  | none => none
  | some (amt, unit) =>
    (lookupFactor (lowerS unit)).map
      (fun f => (match amt with | none => 1 | some ds => digitsToNat ds) * f)

/-- Decimal digits of `n` as code points; the fuel dominates the number of
digits. -/
def natDigitsAux : Nat → Nat → Str
  | 0, _ => []
  | fuel + 1, n => if n < 10 then [48 + n] else natDigitsAux fuel (n / 10) ++ [48 + n % 10]

def natDigits (n : Nat) : Str := natDigitsAux (n + 1) n

/-- Zero-pad to width `w` (the `%02d` / `%04d` fields of `isoformat`). -/
def padZ (w : Nat) (ds : Str) : Str := List.replicate (w - ds.length) 48 ++ ds

/-- Proleptic-Gregorian date for a day count since 1970-01-01 (the civil
calendar of Python `datetime.utcfromtimestamp` for non-negative instants). -/
def civilFromDays (z0 : Nat) : Nat × Nat × Nat :=
  let z := z0 + 719468
  let era := z / 146097
  let doe := z % 146097
  let yoe := (doe - doe / 1460 + doe / 36524 - doe / 146096) / 365
  let y := yoe + era * 400
  let doy := doe - (365 * yoe + yoe / 4 - yoe / 100)
  let mp := (5 * doy + 2) / 153
  let d := doy - (153 * mp + 2) / 5 + 1
  let m := if mp < 10 then mp + 3 else mp - 9
  (if m ≤ 2 then y + 1 else y, m, d)

/-- `datetime.isoformat()` of a whole-second UTC-aware instant:
`YYYY-MM-DDTHH:MM:SS+00:00`. -/
def isoFromEpoch (t : Nat) : Str :=
  let secs := t % 86400
  let ymd := civilFromDays (t / 86400)
  padZ 4 (natDigits ymd.1) ++ [45] ++ padZ 2 (natDigits ymd.2.1) ++ [45] ++
    padZ 2 (natDigits ymd.2.2) ++ [84] ++ padZ 2 (natDigits (secs / 3600)) ++ [58] ++
    padZ 2 (natDigits (secs % 3600 / 60)) ++ [58] ++ padZ 2 (natDigits (secs % 60)) ++
    strOf "+00:00"

/-- The slicing loop of `slice_period`: emit `"<cursor>..<stop>"` windows
until `stop >= cur_date`, then the final `">cursor"`.  The window is at least
one second (`to_second` never returns 0), so `period / window + 2` iterations
of fuel suffice. -/
def slicesLoopAux (cur_date window : Nat) : Nat → Nat → List Str
  | 0, _ => []
  | fuel + 1, cursor =>
    let stop := cursor + window
    if cur_date ≤ stop then [62 :: isoFromEpoch cursor]
    else (isoFromEpoch cursor ++ [46, 46] ++ isoFromEpoch stop)
      :: slicesLoopAux cur_date window fuel stop

/-- `slice_period(period, window, reverse)` at the whole-second UTC instant
`nowEpoch` (the source truncates `utcnow()` to whole seconds; the model
assumes `nowEpoch` is at least the period, as any real crawl instant is).
`none` models the `ValueError` of an invalid annotation. -/
def slice_period (period window : Str) (reverse : Bool) (nowEpoch : Nat) : Option (List Str) :=
  match to_second period, to_second window with
  | some p, some w =>
    let sl := slicesLoopAux nowEpoch w (p / w + 2) (nowEpoch - p)
    some (if reverse then sl.reverse else sl)
  | _, _ => none

/-- Results of one underlying store call, for the connection-retry wrapper:
`redis.ConnectionError` and `redis.BusyLoadingError` are the two caught
transient classes; any other exception is uncaught. -/
inductive DbRes
  | ok (v : Nat)
  | connErr
  | busyLoading
  | otherErr
deriving DecidableEq

/-- Errors surfaced by the wrapper. -/
inductive DbErr
  | connErr
  | busyLoading
  | otherErr
deriving DecidableEq

/-- The `while True` loop of `retrycon` from app/__init__.py over a trace
`f : attempt index → outcome`: a transient failure with `count >= retries`
re-raises, otherwise sleeps `delay` seconds and retries; other exceptions
propagate uncaught.  `remaining` is `retries - count`, so the recursion is
structural; the triple is (result, attempts made, total seconds slept). -/
def retryconGo (f : Nat → DbRes) (delay : Nat) :
    Nat → Nat → Nat → Except DbErr Nat × Nat × Nat
  | remaining, count, sleepAcc =>
    match f count, remaining with
    | .ok v, _ => (.ok v, count + 1, sleepAcc)
    | .otherErr, _ => (.error .otherErr, count + 1, sleepAcc)
    | .connErr, 0 => (.error .connErr, count + 1, sleepAcc)
    | .busyLoading, 0 => (.error .busyLoading, count + 1, sleepAcc)
    | .connErr, r + 1 => retryconGo f delay r (count + 1) (sleepAcc + delay)
    | .busyLoading, r + 1 => retryconGo f delay r (count + 1) (sleepAcc + delay)

/-- `retrycon()` with its defaults `retries=5, delay=5`. -/
def retrycon (f : Nat → DbRes) : Except DbErr Nat × Nat × Nat := retryconGo f 5 5 0 0

/-- The exception taxonomy of lib/github/exceptions.py, as seen by the
`github_limit` wrapper.  `dataDecode` is `DataDecodeError`, which in this
revision subclasses `Exception`, not `GithubException`; `genericGh` is a bare
`GithubException`; `timeoutConn` covers `requests` `Timeout` and
`ConnectionError`. -/
inductive LibGhErr
  | rateLimit
  | abuse
  | notFound
  | login
  | userAgent
  | serverErr
  | genericGh
  | dataDecode
  | timeoutConn
deriving DecidableEq

/-- Outcome of one wrapped request attempt. -/
inductive LibRes
  | ok (v : Nat)
  | exc (e : LibGhErr)
deriving DecidableEq

/-- The `while count < MAX_RETRIES_PER_REQUEST` loop of `github_limit` from
lib/github/limit.py (the `retry` waiter of github/client.py has the identical
structure) over a trace `f : attempt index → outcome`.  The `except` chain in
order: `RateLimitError` re-asks the quota and retries; `AbuseLimitError`
resets the session and retries; any other `GithubException` re-raises unless
it is a `DataDecodeError` or `NotFoundError` (only `NotFoundError` can reach
this clause, and it is retried); `Timeout`/`ConnectionError` reset and retry;
`DataDecodeError` is caught by no clause and propagates.  When the loop
exhausts its `MAX_RETRIES_PER_REQUEST = 5` iterations the function falls
through and returns `None` — modelled as `Except.ok none`. -/
def githubLimitGo (f : Nat → LibRes) : Nat → Nat → Except LibGhErr (Option Nat)
  | 0, _ => .ok none
  | r + 1, count =>
    match f count with
    | .ok v => .ok (some v)
    | .exc .rateLimit => githubLimitGo f r (count + 1)
    | .exc .abuse => githubLimitGo f r (count + 1)
    | .exc .notFound => githubLimitGo f r (count + 1)
    | .exc .timeoutConn => githubLimitGo f r (count + 1)
    | .exc .dataDecode => .error .dataDecode
    | .exc .login => .error .login
    | .exc .userAgent => .error .userAgent
    | .exc .serverErr => .error .serverErr
    | .exc .genericGh => .error .genericGh

/-- `github_limit`-wrapped call: 5 attempts starting at attempt 0. -/
def github_limit (f : Nat → LibRes) : Except LibGhErr (Option Nat) := githubLimitGo f 5 0

/-- The exception taxonomy of modules/github/exceptions.py as classified by
`parse_response`, plus `maxRetries` for `MaxRetriesExceeded`. -/
inductive GhErr
  | notFound
  | badRequest
  | login
  | userAgent
  | repoBlocked
  | blobTooLarge
  | legalReason
  | rateLimit
  | abuse
  | serviceUnavailable
  | serverErr
  | genericGh
  | timeoutConn
  | maxRetries
deriving DecidableEq

/-- `handle_exception` from modules/github/exceptions.py, reduced to its
disposition: `some s` means "sleep `s` seconds (scaled by the attempt
multiplier) and return to the caller so it retries", `none` means the
exception is re-raised.  The delays are the class attributes
(`RateLimitError.delay = 5`, `AbuseLimitError`, `ServiceUnavailableError` and
`GithubServerError` `= 60`), `Timeout`/`ConnectionError` get
`DEFAULT_BREAK_DELAY = 15`, and every class whose `delay` is `None`
(`NotFoundError`, `BadRequestError`, `LoginError`, `UserAgentError`,
`RepoBlockedError`, `BlobTooLargeError`, `LegalReasonError`, bare
`GithubException`, `MaxRetriesExceeded`) is re-raised. -/
def handleExceptionDelay : GhErr → Option Nat
  | .rateLimit => some 5
  | .abuse => some 60
  | .serviceUnavailable => some 60
  | .serverErr => some 60
  | .timeoutConn => some 15
  | _ => none

/-- JSON payload of a successful contents request: a directory listing
(array) or a single file entry (object). -/
inductive ApiData
  | arr (items : List Nat)
  | obj (x : Nat)
deriving DecidableEq

/-- Outcome of one underlying request attempt against the modules client. -/
inductive ModRes
  | ok (d : ApiData)
  | exc (e : GhErr)
deriving DecidableEq

/-- Modelled from the spec: the retry loop of `modules/github/limit.py`,
which is not under src/ (only its caller modules/github/client.py, which
does `from .limit import GithubLimit, retry`, and the declaration
`MaxRetriesExceeded` in modules/github/exceptions.py are).  Per the spec,
"Every API call is wrapped; up to `MAX_RETRIES = 5` attempts" and each
failure is classified by the disposition table; the classification itself is
`handleExceptionDelay`, embedded above from the `handle_exception` function
that IS in src: a `none` disposition re-raises the error to the caller
without a further attempt, a `some` disposition sleeps and retries.  "After
`MAX_RETRIES` exhausted attempts the call fails with a 'max retries
exceeded' condition" (`MaxRetriesExceeded`).  Returns the result together
with the number of attempts made. -/
def modulesRetryGo (f : Nat → ModRes) : Nat → Nat → Except GhErr ApiData × Nat
  | 0, count => (.error .maxRetries, count)
  | r + 1, count =>
    match f count with
    | .ok d => (.ok d, count + 1)
    | .exc e =>
      match handleExceptionDelay e with
      | none => (.error e, count + 1)
      | some _ => modulesRetryGo f r (count + 1)

/-- The spec-modelled `retry`-wrapped request: 5 attempts starting at 0. -/
def modulesRetry (f : Nat → ModRes) : Except GhErr ApiData × Nat := modulesRetryGo f 5 0

/-- `ContentRetriever.__retrieve(url, output='many')` from
modules/github/client.py: issue the wrapped request; on `NotFoundError` or
`BadRequestError` the data becomes the empty listing `[]`; a list result is
passed through, a single object is wrapped in a list; any other error
propagates. -/
def retrieve_many (f : Nat → ModRes) : Except GhErr (List Nat) :=
  match (modulesRetry f).1 with
  | .ok (.arr l) => .ok l
  | .ok (.obj x) => .ok [x]
  | .error e => if e = .notFound ∨ e = .badRequest then .ok [] else .error e

/-- A call in a `Package` mutation sequence. -/
inductive PkgOp
  | addRepo (repo : Str)
  | addPyfile (path repo : Str)
  | addPkgver (version repo : Str)

/-- Apply one mutation call. -/
def applyPkgOp (p : Package) : PkgOp → Package
  | .addRepo r => p.add_repo r
  | .addPyfile path r => p.add_pyfile path r
  | .addPkgver v r => p.add_pkgver v r

/-- Apply a sequence of mutation calls. -/
def applyPkgOps (p : Package) (ops : List PkgOp) : Package := ops.foldl applyPkgOp p

/-- Scenario S1: the source-file content attached at `main.py`. -/
def s1content : Str := strOf "import flask\nfrom requests import get"

/-- Scenario S1: repository `alice/app` with `main.py` attached. -/
def s1repo : Repository :=
  (Repository.add_file { name := strOf "alice/app" } (strOf "main.py") s1content).1

/-- Scenario S1: the result of `find_packages` on an empty store. -/
def s1res : Repository × List (Str × Package) := find_packages (fun _ => none) s1repo

/-- The counter/collection agreement invariant of `Package` (spec Property 3),
plus the auxiliary fact that `pyfiles` is supported on `repos`. -/
def PkgInv (p : Package) : Prop :=
  p.num_repos = p.repos.card ∧
  p.num_pyfiles = Finset.sum p.repos (fun r => (p.pyfiles r).card) ∧
  p.num_reqfiles = p.reqfiles.length ∧
  ∀ r, r ∉ p.repos → p.pyfiles r = ∅

theorem lowerN_upperN (c : Nat) : lowerN (upperN c) = lowerN c := by
  unfold lowerN upperN; split_ifs <;> omega

theorem lowerN_lowerN (c : Nat) : lowerN (lowerN c) = lowerN c := by
  unfold lowerN; split_ifs <;> omega

theorem lowerS_upperS (s : Str) : lowerS (upperS s) = lowerS s := by
  induction s with
  | nil => rfl
  | cons c cs ih => simpa [lowerS, upperS, lowerN_upperN c] using ih

theorem lowerS_lowerS (s : Str) : lowerS (lowerS s) = lowerS s := by
  induction s with
  | nil => rfl
  | cons c cs ih => simpa [lowerS, lowerN_lowerN c] using ih

theorem upperN_not_lowercase (c a : Nat) (h1 : 97 ≤ a) (h2 : a ≤ 122) : upperN c ≠ a := by
  unfold upperN; split_ifs <;> omega

theorem isPrefixOf_append_self : ∀ p x : Str, p.isPrefixOf (p ++ x) = true
  | [], _ => by simp [List.isPrefixOf]
  | a :: as, x => by simp [List.isPrefixOf, isPrefixOf_append_self as x]

theorem containsSub_of_isPfx (p s : Str) (h : p.isPrefixOf s = true) :
    containsSub p s = true := by
  cases s with
  | nil => simpa [containsSub] using h
  | cons c cs => simp [containsSub, h]

theorem isPfx_false_of_not_contains (p s : Str) (h : containsSub p s = false) :
    p.isPrefixOf s = false := by
  cases hp : p.isPrefixOf s with
  | false => rfl
  | true => rw [containsSub_of_isPfx p s hp] at h; cases h

theorem containsSub_tail (p : Str) (c : Nat) (cs : Str)
    (h : containsSub p (c :: cs) = false) : containsSub p cs = false := by
  have := (Bool.or_eq_false_iff.mp (by simpa [containsSub] using h)).2
  exact this

theorem replDelAux_id (p : Str) : ∀ (fuel : Nat) (s : Str),
    containsSub p s = false → replDelAux p fuel s = s
  | 0, s, _ => rfl
  | _ + 1, [], _ => rfl
  | fuel + 1, c :: cs, h => by
    rw [replDelAux, if_neg, replDelAux_id p fuel cs (containsSub_tail p c cs h)]
    simp [isPfx_false_of_not_contains p (c :: cs) h]

theorem pyReplaceDel_append (p x : Str) (hne : p ≠ []) (hx : containsSub p x = false) :
    pyReplaceDel (p ++ x) p = x := by
  cases p with
  | nil => exact absurd rfl hne
  | cons a as =>
    show replDelAux (a :: as) ((a :: as) ++ x).length ((a :: as) ++ x) = x
    have hlen : ((a :: as) ++ x).length = (as ++ x).length + 1 := by simp
    rw [hlen, List.cons_append, replDelAux, if_pos]
    · have hdrop : ((a :: as) ++ x).drop (a :: as).length = x := List.drop_left _ _
      rw [show a :: (as ++ x) = (a :: as) ++ x from rfl, hdrop,
        replDelAux_id (a :: as) (as ++ x).length x hx]
    · rw [show a :: (as ++ x) = (a :: as) ++ x from rfl]
      exact isPrefixOf_append_self (a :: as) x

theorem gkCore_clean (a : Nat) (as n : Str) (ha1 : 97 ≤ a) (ha2 : a ≤ 122)
    (hlow : lowerS (a :: as) = a :: as)
    (hn : containsSub (a :: as) (lowerS n) = false) :
    gkCore (a :: as) n = (a :: as) ++ lowerS n ∧
    gkCore (a :: as) (upperS n) = (a :: as) ++ lowerS n ∧
    gkCore (a :: as) ((a :: as) ++ lowerS n) = (a :: as) ++ lowerS n := by
  refine ⟨?_, ?_, ?_⟩
  · have hp : (a :: as).isPrefixOf n = false := by
      cases hp : (a :: as).isPrefixOf n with
      | false => rfl
      | true =>
        obtain ⟨t, ht⟩ := (List.isPrefixOf_iff_prefix.mp hp)
        have : containsSub (a :: as) (lowerS n) = true := by
          apply containsSub_of_isPfx
          rw [← ht, show lowerS ((a :: as) ++ t) = lowerS (a :: as) ++ lowerS t by
            simp [lowerS], hlow]
          exact isPrefixOf_append_self _ _
        rw [this] at hn; cases hn
    simp [gkCore, hp]
  · have hp : (a :: as).isPrefixOf (upperS n) = false := by
      cases n with
      | nil => rfl
      | cons c cs =>
        have : (a == upperN c) = false := by
          simp [upperN_not_lowercase c a ha1 ha2, BEq.comm]
          exact fun h => absurd h.symm (upperN_not_lowercase c a ha1 ha2)
        simp [upperS, List.isPrefixOf, this]
    simp [gkCore, hp, lowerS_upperS]
  · have hp : (a :: as).isPrefixOf ((a :: as) ++ lowerS n) = true :=
      isPrefixOf_append_self _ _
    have hrepl : pyReplaceDel ((a :: as) ++ lowerS n) (a :: as) = lowerS n :=
      pyReplaceDel_append (a :: as) (lowerS n) (by simp) hn
    simp only [gkCore, hp, if_true]
    rw [hrepl, lowerS_lowerS]

/-- C4 (counterexample): the claim "for all name, key(name) == key(upper(name))
== key(key(name))" is false as stated: for the already-prefixed name
`"pkg:x"`, `genkey` strips the prefix (`key("pkg:x") = "pkg:x"`) but the
case-sensitive `startswith` does not fire on `upper("pkg:x") = "PKG:X"`, so
`key("PKG:X") = "pkg:pkg:x"`. -/
theorem genkey_upper_counterexample :
    genkey (strOf "pkg") (strOf "pkg:x") ≠ genkey (strOf "pkg") (upperS (strOf "pkg:x")) := by
  decide

/-- C4 (amended): for every name whose lowercased form does not contain the
prefixed-key marker (`"pkg:"` for packages, `"repo:"` for repositories) as a
substring, computing the store key is invariant under uppercasing the input
name and is idempotent: `key(name) == key(upper(name)) == key(key(name))`. -/
theorem genkey_canonical (n : Str)
    (h1 : containsSub (strOf "pkg:") (lowerS n) = false)
    (h2 : containsSub (strOf "repo:") (lowerS n) = false) :
    (genkey (strOf "pkg") n = genkey (strOf "pkg") (upperS n) ∧
     genkey (strOf "pkg") n = genkey (strOf "pkg") (genkey (strOf "pkg") n)) ∧
    (genkey (strOf "repo") n = genkey (strOf "repo") (upperS n) ∧
     genkey (strOf "repo") n = genkey (strOf "repo") (genkey (strOf "repo") n)) := by
  have e1 : ∀ m : Str, genkey (strOf "pkg") m = gkCore (112 :: [107, 103, 58]) m := fun _ => rfl
  have e2 : ∀ m : Str, genkey (strOf "repo") m = gkCore (114 :: [101, 112, 111, 58]) m :=
    fun _ => rfl
  have c1 := gkCore_clean 112 [107, 103, 58] n (by omega) (by omega) (by decide)
    (by simpa [strOf] using h1)
  have c2 := gkCore_clean 114 [101, 112, 111, 58] n (by omega) (by omega) (by decide)
    (by simpa [strOf] using h2)
  refine ⟨⟨?_, ?_⟩, ⟨?_, ?_⟩⟩
  · rw [e1, e1, c1.1, c1.2.1]
  · rw [e1, e1, c1.1, c1.2.2]
  · rw [e2, e2, c2.1, c2.2.1]
  · rw [e2, e2, c2.1, c2.2.2]

/-- C4 (witness): the amended key-canonicalisation at the concrete name
`"Alice/App"`. -/
theorem genkey_canonical_witness :
    containsSub (strOf "pkg:") (lowerS (strOf "Alice/App")) = false ∧
    genkey (strOf "pkg") (strOf "Alice/App") =
      genkey (strOf "pkg") (upperS (strOf "Alice/App")) ∧
    genkey (strOf "repo") (strOf "Alice/App") =
      genkey (strOf "repo") (genkey (strOf "repo") (strOf "Alice/App")) :=
  ⟨by decide,
   ((genkey_canonical (strOf "Alice/App") (by decide) (by decide)).1).1,
   ((genkey_canonical (strOf "Alice/App") (by decide) (by decide)).2).2⟩

theorem add_repo_mem (p : Package) (r : Str) : r ∈ (p.add_repo r).repos := by
  unfold Package.add_repo
  split
  · assumption
  · exact Finset.mem_insert_self r p.repos

theorem add_repo_inv (p : Package) (r : Str) (h : PkgInv p) : PkgInv (p.add_repo r) := by
  obtain ⟨h1, h2, h3, h4⟩ := h
  unfold Package.add_repo
  split
  · exact ⟨h1, h2, h3, h4⟩
  · refine ⟨?_, ?_, h3, ?_⟩
    · simpa [Finset.card_insert_of_not_mem (by assumption)] using h1
    · rw [Finset.sum_insert (by assumption), h4 r (by assumption)]
      simpa using h2
    · intro r' hr'
      exact h4 r' (fun hm => hr' (Finset.mem_insert_of_mem hm))

theorem add_pyfile_inv (p : Package) (path r : Str) (h : PkgInv p) :
    PkgInv (p.add_pyfile path r) := by
  have hq := add_repo_inv p r h
  have hmem := add_repo_mem p r
  obtain ⟨h1, h2, h3, h4⟩ := hq
  unfold Package.add_pyfile
  dsimp only
  split
  · exact ⟨h1, h2, h3, h4⟩
  · refine ⟨h1, ?_, h3, ?_⟩
    · dsimp only
      have e1 : (Finset.sum (p.add_repo r).repos (fun x =>
            (Function.update (p.add_repo r).pyfiles r
              (insert path ((p.add_repo r).pyfiles r)) x).card))
          = (insert path ((p.add_repo r).pyfiles r)).card
            + Finset.sum ((p.add_repo r).repos.erase r)
                (fun x => ((p.add_repo r).pyfiles x).card) := by
        rw [← Finset.add_sum_erase _ _ hmem, Function.update_same]
        congr 1
        apply Finset.sum_congr rfl
        intro x hx
        rw [Function.update_noteq (Finset.ne_of_mem_erase hx)]
      have e2 : (insert path ((p.add_repo r).pyfiles r)).card
          = ((p.add_repo r).pyfiles r).card + 1 :=
        Finset.card_insert_of_not_mem (by assumption)
      have e3 : (p.add_repo r).num_pyfiles
          = ((p.add_repo r).pyfiles r).card
            + Finset.sum ((p.add_repo r).repos.erase r)
                (fun x => ((p.add_repo r).pyfiles x).card) := by
        rw [h2, ← Finset.add_sum_erase _ _ hmem]
      rw [e1, e2]
      omega
    · intro r' hr'
      dsimp only at hr' ⊢
      have hne : r' ≠ r := fun he => hr' (by rw [he]; exact hmem)
      rw [Function.update_noteq hne]
      exact h4 r' hr'

theorem add_pkgver_inv (p : Package) (v r : Str) (h : PkgInv p) :
    PkgInv (p.add_pkgver v r) := by
  have hq := add_repo_inv p r h
  obtain ⟨h1, h2, h3, h4⟩ := hq
  unfold Package.add_pkgver
  dsimp only
  split
  · refine ⟨h1, h2, ?_, h4⟩
    unfold assocUpsert
    split
    · simpa using h3
    · simp_all
  · refine ⟨h1, h2, ?_, h4⟩
    simpa using h3

theorem pkgInv_applyOps : ∀ (ops : List PkgOp) (p : Package), PkgInv p →
    PkgInv (applyPkgOps p ops)
  | [], _, h => h
  | op :: ops, p, h => by
    have hstep : PkgInv (applyPkgOp p op) := by
      cases op with
      | addRepo r => exact add_repo_inv p r h
      | addPyfile path r => exact add_pyfile_inv p path r h
      | addPkgver v r => exact add_pkgver_inv p v r h
    simpa [applyPkgOps] using pkgInv_applyOps ops (applyPkgOp p op) hstep

/-- C5: after any sequence of `add_repo` / `add_pyfile` / `add_pkgver` calls
starting from a fresh `Package` (counters 0, collections empty), `num_repos`
equals `|repos|`, `num_pyfiles` equals the sum over the repos of the number
of recorded source-file paths, and `num_reqfiles` equals `|reqfiles|`. -/
theorem package_counters_agree (name : Str) (ops : List PkgOp) :
    (applyPkgOps (Package.fresh name) ops).num_repos =
      (applyPkgOps (Package.fresh name) ops).repos.card ∧
    (applyPkgOps (Package.fresh name) ops).num_pyfiles =
      Finset.sum (applyPkgOps (Package.fresh name) ops).repos
        (fun r => ((applyPkgOps (Package.fresh name) ops).pyfiles r).card) ∧
    (applyPkgOps (Package.fresh name) ops).num_reqfiles =
      (applyPkgOps (Package.fresh name) ops).reqfiles.length := by
  have hfresh : PkgInv (Package.fresh name) := by
    refine ⟨by simp [Package.fresh], by simp [Package.fresh], by simp [Package.fresh], ?_⟩
    intro r _
    rfl
  obtain ⟨h1, h2, h3, _⟩ := pkgInv_applyOps ops (Package.fresh name) hfresh
  exact ⟨h1, h2, h3⟩

/-- C10: `Package.add_pkgver(version, repo)` always also inserts `repo` into
`repos` (through its initial `add_repo` call), and `num_repos` grows by one
exactly when the repo was new — so a repository referencing a package only in
its requirements file is still counted in `num_repos`. -/
theorem add_pkgver_registers_repo (p : Package) (version repo : Str) :
    repo ∈ (p.add_pkgver version repo).repos ∧
    (p.add_pkgver version repo).num_repos =
      (if repo ∈ p.repos then p.num_repos else p.num_repos + 1) := by
  have hmem := add_repo_mem p repo
  have hrepos : (p.add_pkgver version repo).repos = (p.add_repo repo).repos := by
    unfold Package.add_pkgver
    dsimp only
    split <;> rfl
  have hnum : (p.add_pkgver version repo).num_repos = (p.add_repo repo).num_repos := by
    unfold Package.add_pkgver
    dsimp only
    split <;> rfl
  refine ⟨hrepos ▸ hmem, hnum ▸ ?_⟩
  unfold Package.add_repo
  split
  · rfl
  · rfl

/-- C6: whenever the retrieve phase visits a repository whose `retrieved`
field is true, `retrieve_files_in_repo` returns immediately: the content
walker is not invoked (the boolean is false, and every contents API call of
the method flows through the walker), no package extraction happens, and the
repository record is unchanged. -/
theorem retrieved_repo_not_rewalked (db : Str → Option Package) (repo : Repository)
    (walkFiles : List (Str × Str)) (h : repo.retrieved = true) :
    retrieve_files_in_repo db repo walkFiles = (repo, [], false) := by
  simp [retrieve_files_in_repo, h]

/-- C6 (witness): a concrete already-retrieved repository is skipped even
though the walker would have yielded a source file. -/
theorem retrieved_repo_not_rewalked_witness :
    ({ name := strOf "x/y", contents_url := strOf "u", retrieved := true } : Repository).retrieved
        = true ∧
    retrieve_files_in_repo (fun _ => none)
        { name := strOf "x/y", contents_url := strOf "u", retrieved := true }
        [(strOf "a.py", strOf "import os")] =
      ({ name := strOf "x/y", contents_url := strOf "u", retrieved := true }, [], false) :=
  ⟨rfl, retrieved_repo_not_rewalked _ _ _ rfl⟩

set_option maxRecDepth 4096

/-- C1 (evaluation at the failing input): for scenario S1 — source-file
content `"import flask\nfrom requests import get"` at path `main.py` in
repository `alice/app` — `find_packages` attributes the packages `fl` and
`requests`, not `flask` and `requests`: `parse_pyfile` strips the alias with
`part.rsplit('as', maxsplit=1)[0]`, a substring split that truncates `flask`
at its embedded `as`.  The `requests` half of the claim, and the counters,
do hold. -/
theorem find_packages_s1_mangles_flask :
    s1res.1.packages.toFinset = {strOf "fl", strOf "requests"} ∧
    (s1res.2.lookup (strOf "flask")).isNone = true ∧
    (s1res.2.lookup (strOf "fl")).map
        (fun p => (p.repos, p.pyfiles (strOf "alice/app"), p.num_repos, p.num_pyfiles)) =
      some ({strOf "alice/app"}, {strOf "main.py"}, 1, 1) ∧
    (s1res.2.lookup (strOf "requests")).map
        (fun p => (p.repos, p.pyfiles (strOf "alice/app"), p.num_repos, p.num_pyfiles)) =
      some ({strOf "alice/app"}, {strOf "main.py"}, 1, 1) := by
  refine ⟨by decide, by decide, by decide, by decide⟩

/-- C2 (evaluation at the failing input): when all `MAX_RETRIES_PER_REQUEST =
5` attempts fail with retryable errors (rate limit, abuse, not-found, or
timeout/connection), the `github_limit` / `retry` wrapper's `while` loop
exhausts and the wrapped call returns `None` normally (`Except.ok none`) —
no `MaxRetriesExceeded` or any other error is raised. -/
theorem github_limit_exhaustion_returns_none :
    github_limit (fun _ => LibRes.exc .rateLimit) = .ok none ∧
    github_limit (fun _ => LibRes.exc .abuse) = .ok none ∧
    github_limit (fun _ => LibRes.exc .notFound) = .ok none ∧
    github_limit (fun _ => LibRes.exc .timeoutConn) = .ok none :=
  ⟨rfl, rfl, rfl, rfl⟩

/-- C3: a wrapped request that fails with `NotFoundError` or `BadRequestError`
is not retried — `handle_exception` (whose disposition is embedded from
modules/github/exceptions.py) re-raises it, so exactly one attempt is made
and the error propagates to `ContentRetriever.__retrieve`, which turns it
into the empty listing `[]`. -/
theorem notfound_badrequest_empty_no_retry (f g : Nat → ModRes)
    (hf : f 0 = .exc .notFound) (hg : g 0 = .exc .badRequest) :
    modulesRetry f = (.error .notFound, 1) ∧ retrieve_many f = .ok [] ∧
    modulesRetry g = (.error .badRequest, 1) ∧ retrieve_many g = .ok [] := by
  have h1 : modulesRetry f = (.error .notFound, 1) := by
    simp [modulesRetry, modulesRetryGo, hf, handleExceptionDelay]
  have h2 : modulesRetry g = (.error .badRequest, 1) := by
    simp [modulesRetry, modulesRetryGo, hg, handleExceptionDelay]
  refine ⟨h1, ?_, h2, ?_⟩
  · simp [retrieve_many, h1]
  · simp [retrieve_many, h2]

/-- C3 (witness): the not-retried empty-result behaviour at the concrete
traces that fail with `NotFoundError` resp. `BadRequestError` on the first
attempt. -/
theorem notfound_badrequest_empty_no_retry_witness :
    modulesRetry (fun _ => .exc .notFound) = (.error .notFound, 1) ∧
    retrieve_many (fun _ => .exc .notFound) = .ok [] ∧
    modulesRetry (fun _ => .exc .badRequest) = (.error .badRequest, 1) ∧
    retrieve_many (fun _ => .exc .badRequest) = .ok [] :=
  notfound_badrequest_empty_no_retry _ _ rfl rfl

/-- C7: with the current time fixed at 2024-01-03T00:00:00Z (epoch second
1704240000), `slice_period("2d", "1d", reverse=false)` returns exactly the
two tokens of scenario S3, in order: a full `"<start>..<end>"` window and the
final `">start"` window. -/
theorem slice_period_s3_two_tokens :
    slice_period (strOf "2d") (strOf "1d") false 1704240000 =
      some [strOf "2024-01-01T00:00:00+00:00..2024-01-02T00:00:00+00:00",
            strOf ">2024-01-02T00:00:00+00:00"] := by
  decide

/-- C9 (counterexample): the claim "at most 5 attempts in total" is false:
with `retrycon()`'s defaults (`retries=5`), a call whose first five attempts
fail transiently and whose sixth succeeds returns success after 6 attempts
(5 sleeps of 5 seconds), instead of having propagated the failure within 5
attempts. -/
theorem retrycon_six_attempts_counterexample :
    retrycon (fun i => if i < 5 then DbRes.connErr else DbRes.ok 7) = (.ok 7, 6, 25) := rfl

theorem retryconGo_attempts_le (f : Nat → DbRes) (delay : Nat) :
    ∀ (rem count sleepAcc : Nat), (retryconGo f delay rem count sleepAcc).2.1 ≤ count + rem + 1
  | 0, count, sleepAcc => by
    unfold retryconGo
    cases f count <;> simp
  | rem + 1, count, sleepAcc => by
    unfold retryconGo
    cases f count <;> simp
    · exact le_trans (retryconGo_attempts_le f delay rem (count + 1) (sleepAcc + delay))
        (by omega)
    · exact le_trans (retryconGo_attempts_le f delay rem (count + 1) (sleepAcc + delay))
        (by omega)

/-- C9 (amended): every store operation wrapped by `retrycon()` performs at
most 6 attempts in total (one initial attempt plus up to `retries = 5`
retries), with a fixed 5-second delay between consecutive attempts; a
persistent transient failure propagates after the 6th failed attempt (25
seconds slept in total), and any non-transient failure propagates
immediately, after a single attempt and no sleep. -/
theorem retrycon_bounded_attempts (f : Nat → DbRes) :
    (retrycon f).2.1 ≤ 6 ∧
    ((∀ i, f i = DbRes.connErr) → retrycon f = (.error .connErr, 6, 25)) ∧
    (f 0 = DbRes.otherErr → retrycon f = (.error .otherErr, 1, 0)) := by
  refine ⟨?_, ?_, ?_⟩
  · simpa [retrycon] using retryconGo_attempts_le f 5 5 0 0
  · intro h
    have he : f = fun _ => DbRes.connErr := funext h
    subst he
    rfl
  · intro h
    simp [retrycon, retryconGo, h]

/-- C9 (witness): the amended retry bound at the concrete always-transient
and immediately-fatal traces. -/
theorem retrycon_bounded_attempts_witness :
    retrycon (fun _ => DbRes.connErr) = (.error .connErr, 6, 25) ∧
    retrycon (fun i => if i = 0 then DbRes.otherErr else DbRes.ok 1) =
      (.error .otherErr, 1, 0) :=
  ⟨(retrycon_bounded_attempts _).2.1 (fun _ => rfl),
   (retrycon_bounded_attempts _).2.2 rfl⟩

theorem digit_not_space (c : Nat) (h : isDigit19 c = true) : isPySpace c = false := by
  simp [isDigit19] at h
  simp [isPySpace]
  omega

theorem word_not_space (c : Nat) (h : isWordC c = true) : isPySpace c = false := by
  simp [isWordC] at h
  simp [isPySpace]
  omega

theorem takeWhile_append_all (p : Nat → Bool) :
    ∀ (l1 l2 : List Nat), (∀ c ∈ l1, p c = true) →
      (l1 ++ l2).takeWhile p = l1 ++ l2.takeWhile p
  | [], l2, _ => rfl
  | a :: l1, l2, h => by
    have ha : p a = true := h a (by simp)
    simp only [List.cons_append, List.takeWhile_cons, ha, if_true]
    rw [takeWhile_append_all p l1 l2 (fun c hc => h c (by simp [hc]))]

theorem takeWhile_eq_self (p : Nat → Bool) (l : List Nat) (h : ∀ c ∈ l, p c = true) :
    l.takeWhile p = l := by
  have := takeWhile_append_all p l [] h
  simpa using this

theorem matchTimeAnno_concat (d0 : Nat) (ds' : Str) (u0 : Nat) (us : Str)
    (hd : ∀ c ∈ d0 :: ds', isDigit19 c = true)
    (hu0 : isDigit19 u0 = false)
    (huw : ∀ c ∈ u0 :: us, isWordC c = true) :
    matchTimeAnno ((d0 :: ds') ++ (u0 :: us)) = some (some (d0 :: ds'), u0 :: us) := by
  have h0 : isPySpace d0 = false := digit_not_space d0 (hd d0 (by simp))
  have hu0s : isPySpace u0 = false := word_not_space u0 (huw u0 (by simp))
  have hdrop : ((d0 :: ds') ++ (u0 :: us)).dropWhile isPySpace = (d0 :: ds') ++ (u0 :: us) := by
    simp [List.dropWhile_cons, h0]
  have htake : ((d0 :: ds') ++ (u0 :: us)).takeWhile isDigit19 = d0 :: ds' := by
    rw [takeWhile_append_all isDigit19 (d0 :: ds') (u0 :: us) hd]
    simp [List.takeWhile_cons, hu0]
  have hdrop2 : ((d0 :: ds') ++ (u0 :: us)).drop (ds'.length + 1) = u0 :: us := by
    have h := List.drop_left (d0 :: ds') (u0 :: us)
    simp only [List.length_cons] at h
    exact h
  have htakeL : ((d0 :: ds') ++ (u0 :: us)).take (ds'.length + 1) = d0 :: ds' := by
    have h := List.take_left (d0 :: ds') (u0 :: us)
    simp only [List.length_cons] at h
    exact h
  have hdropw : (u0 :: us).dropWhile isPySpace = u0 :: us := by
    simp [List.dropWhile_cons, hu0s]
  have htakew : (u0 :: us).takeWhile isWordC = u0 :: us := takeWhile_eq_self _ _ huw
  have hlen : ((d0 :: ds') ++ (u0 :: us)).takeWhile isDigit19 = d0 :: ds' := htake
  simp only [matchTimeAnno, hdrop, hlen, List.length_cons]
  simp only [timeAnnoTryK, hdrop2, hdropw, htakew, htakeL]
  simp [List.drop_length]

/-- C8 (counterexample): the claim fails for n = 10: the amount group of
`match_time_annotation` is `([1-9]+)?`, which cannot contain the digit 0, so
`to_second("10s")` parses amount `"1"` with unknown unit `"0s"` and raises
`ValueError` instead of returning 10. -/
theorem to_second_rejects_ten :
    to_second (strOf "10s") = none ∧ to_second (strOf "10s") ≠ some 10 := by
  decide

/-- C8 (amended): for every positive integer amount written with the digits
1–9 only (the amount regex `[1-9]+` rejects any amount containing the digit
0) and every supported unit alias `u` with factor `fac` in the source's
`factors` table, `to_second("<amount><u>")` returns the amount times `fac`;
a missing amount defaults to 1 (`to_second("m") == 60`, and
`to_second("2h") == 7200`); a unit word not in the table raises `ValueError`
(returns `none`). -/
theorem to_second_amount_units (ds u : Str) (u0 : Nat) (us : Str) (fac : Nat)
    (hds : ds ≠ []) (hd : ∀ c ∈ ds, isDigit19 c = true)
    (hu : u = u0 :: us) (hu0 : isDigit19 u0 = false)
    (huw : ∀ c ∈ u, isWordC c = true) :
    (lookupFactor (lowerS u) = some fac → to_second (ds ++ u) = some (digitsToNat ds * fac)) ∧
    (lookupFactor (lowerS u) = none → to_second (ds ++ u) = none) ∧
    to_second (strOf "m") = some 60 ∧ to_second (strOf "2h") = some 7200 := by
  obtain ⟨d0, ds', rfl⟩ : ∃ d0 ds', ds = d0 :: ds' := by
    cases ds with
    | nil => exact absurd rfl hds
    | cons a l => exact ⟨a, l, rfl⟩
  subst hu
  have hm : matchTimeAnno (d0 :: (ds' ++ (u0 :: us))) = some (some (d0 :: ds'), u0 :: us) := by
    rw [← List.cons_append]
    exact matchTimeAnno_concat d0 ds' u0 us hd hu0 huw
  refine ⟨?_, ?_, by decide, by decide⟩
  · intro h
    simp [to_second, hm, h]
  · intro h
    simp [to_second, hm, h]

/-- C8 (witness): the amended annotation grammar at the concrete input
`"2" ++ "h"`. -/
theorem to_second_amount_units_witness :
    to_second (strOf "2" ++ strOf "h") = some (digitsToNat (strOf "2") * 3600) :=
  (to_second_amount_units (strOf "2") (strOf "h") 104 [] 3600 (by decide) (by decide)
    (by decide) (by decide) (by decide)).1 (by decide)
